import Mathlib

/-!
Shallow embedding of the order/basket/inventory core of the idp_db service
(src/main.py, src/models.py, src/auth.py).  Table rows are structures, tables
are lists in insertion order, SQLAlchemy first()/filter() become
List.find?/List.filter, and each endpoint is a state-passing function on a DB
snapshot.  Monetary Numeric(10,2) values are embedded as exact rationals; the
Python float arithmetic inside create_order is modelled by an explicit binary64
round-to-nearest-even function on rationals.
-/

deriving instance DecidableEq for Except

namespace IdpDb

/-- Row of the users table (src/models.py, class User). -/
structure User where
  id : ℤ
  name : String
  email : String
  deriving DecidableEq, Repr

/-- Row of the products table (src/models.py, class Product).  The name and
description columns play no role in any modelled behaviour and are omitted;
price is the Numeric(10,2) column as an exact rational, stock the Integer
column. -/
structure Product where
  id : ℤ
  price : ℚ
  stock : ℤ
  deriving DecidableEq, Repr

/-- Row of the basket_items table (src/models.py, class BasketItem). -/
structure BasketItem where
  id : ℤ
  user_id : ℤ
  product_id : ℤ
  quantity : ℤ
  deriving DecidableEq, Repr

/-- Row of the orders table (src/models.py, class Order).  The order_date
column is irrelevant to every claim and omitted. -/
structure Order where
  id : ℤ
  user_id : ℤ
  total : ℚ
  deriving DecidableEq, Repr

/-- Row of the order_items table (src/models.py, class OrderItem). -/
structure OrderItem where
  id : ℤ
  order_id : ℤ
  product_id : ℤ
  quantity : ℤ
  price_at_purchase : ℚ
  deriving DecidableEq, Repr

/-- A committed database snapshot: the five tables plus the id sequences used
for freshly inserted rows (primary keys are generated by the database). -/
structure DB where
  users : List User
  products : List Product
  basketItems : List BasketItem
  orders : List Order
  orderItems : List OrderItem
  nextBasketItemId : ℤ
  nextOrderId : ℤ
  nextOrderItemId : ℤ
  deriving DecidableEq, Repr

/-- Error taxonomy of the endpoints (HTTPException details in src/main.py). -/
inductive Err where
  | emptyBasket
  | productNotFound (pid : ℤ)
  | insufficientStock (pid : ℤ)
  | notFound
  deriving DecidableEq, Repr

/-- HTTP status code raised for each error (src/main.py status_code's). -/
def http_status : Err → ℕ
  | .emptyBasket => 400
  | .productNotFound _ => 404
  | .insufficientStock _ => 400
  | .notFound => 404

/-! ### Binary64 model

create_order accumulates its total with Python float arithmetic
(`total += float(product.price) * item.quantity`, src/main.py line 337).
We model an IEEE-754 binary64 value as the exact rational it denotes and each
float operation as the exact rational operation followed by rounding to a
53-bit significand, round-to-nearest, ties to even.  Subnormal and overflow
behaviour is outside the range of Numeric(10,2) data and not modelled.  All
definitions below work on numerators and denominators directly so that every
closed instance evaluates by rfl-style reduction. -/

/-- Exact rational addition written out on numerators and denominators (equal
to ordinary addition on ℚ; see qadd_eq). -/
def qadd (a b : ℚ) : ℚ :=
  mkRat (a.num * (b.den : ℤ) + b.num * (a.den : ℤ)) (a.den * b.den)

/-- Exact rational multiplication written out on numerators and denominators
(equal to ordinary multiplication on ℚ; see qmul_eq). -/
def qmul (a b : ℚ) : ℚ := mkRat (a.num * b.num) (a.den * b.den)

/-- Number of binary digits of a natural number below 2^400 (fuel-indexed
structural recursion). -/
def bitlenF : ℕ → ℕ → ℕ
  | 0, _ => 0
  | fuel + 1, n => if n = 0 then 0 else bitlenF fuel (n / 2) + 1

/-- Number of binary digits, ample fuel for every quantity arising here. -/
def bitlen (n : ℕ) : ℕ := bitlenF 400 n

/-- Floor of the base-2 logarithm of a positive rational: the candidate from
the bit lengths of numerator and denominator, corrected by one comparison. -/
def floorLog2 (q : ℚ) : ℤ :=
  let n := q.num.natAbs
  let d := q.den
  let e0 : ℤ := (bitlen n : ℤ) - (bitlen d : ℤ)
  let ok : Bool :=
    if 0 ≤ e0 then d * 2 ^ e0.toNat ≤ n else d ≤ n * 2 ^ (-e0).toNat
  if ok then e0 else e0 - 1

/-- Round a positive rational to a 53-bit significand, nearest, ties to even:
scale into [2^52, 2^53), split into integer part and remainder, and round the
remainder against half of the denominator. -/
def rnd64pos (q : ℚ) : ℚ :=
  let e := floorLog2 q
  let k := (52 : ℤ) - e
  let n := q.num.toNat
  let d := q.den
  let num2 := if 0 ≤ k then n * 2 ^ k.toNat else n
  let den2 := if 0 ≤ k then d else d * 2 ^ (-k).toNat
  let fl := num2 / den2
  let r := num2 % den2
  let m :=
    if 2 * r < den2 then fl
    else if den2 < 2 * r then fl + 1
    else if fl % 2 = 0 then fl else fl + 1
  if 0 ≤ k then mkRat (Int.ofNat m) (2 ^ k.toNat)
  else mkRat (Int.ofNat (m * 2 ^ (-k).toNat)) 1

/-- The binary64 value nearest a rational: the effect of a Python float
conversion and of the final rounding of each float operation. -/
def rnd64 (q : ℚ) : ℚ :=
  if q.num = 0 then mkRat 0 1
  else if q.num < 0 then
    let r := rnd64pos (mkRat (-q.num) q.den)
    mkRat (-r.num) r.den
  else rnd64pos q

/-- One step of the Python accumulation
`total += float(product.price) * item.quantity`: the price Decimal is
converted to float, the int quantity is converted to float, their product and
the running sum each round once. -/
def py_acc (total : ℚ) (price : ℚ) (qty : ℤ) : ℚ :=
  rnd64 (qadd total (rnd64 (qmul (rnd64 price) (rnd64 (mkRat qty 1)))))

/-- Rounding of a value stored into a Numeric(10,2) column: two fractional
decimal digits, half upward (for q = n/d this is floor((200 n + d)/(2 d)),
divided by 100).  Exact halves are never produced by the modelled float data
(1/200 is not dyadic), so the tie direction is immaterial. -/
def roundN2 (q : ℚ) : ℚ :=
  mkRat ((200 * q.num + (q.den : ℤ)).fdiv (2 * (q.den : ℤ))) 100

/-! ### Query helpers (SQLAlchemy query translations) -/

/-- db.query(Product).filter(Product.id == pid).first() -/
def find_product (l : List Product) (pid : ℤ) : Option Product :=
  l.find? (fun p => p.id == pid)

/-- The stock column of the first products row with the given id, if any. -/
def stock_of (db : DB) (pid : ℤ) : Option ℤ :=
  (find_product db.products pid).map (fun p => p.stock)

/-- ORM attribute mutation `product.stock = f product.stock` on the single row
returned by first(): only the first row with the given id is updated. -/
def update_stock (pid : ℤ) (f : ℤ → ℤ) : List Product → List Product
  | [] => []
  | p :: ps =>
    if p.id == pid then { p with stock := f p.stock } :: ps
    else p :: update_stock pid f ps

/-- Total quantity the given basket rows hold for one product. -/
def qty_for (items : List BasketItem) (pid : ℤ) : ℤ :=
  ((items.filter (fun b => b.product_id == pid)).map (fun b => b.quantity)).sum

/-- Total quantity the given order-item rows hold for one product. -/
def oi_qty (ois : List OrderItem) (pid : ℤ) : ℤ :=
  ((ois.filter (fun oi => oi.product_id == pid)).map (fun oi => oi.quantity)).sum

/-- Basket rows of one user (db.query(BasketItem).filter(user_id == uid)). -/
def user_basket (db : DB) (uid : ℤ) : List BasketItem :=
  db.basketItems.filter (fun b => b.user_id == uid)

/-! ### Endpoint embeddings -/

/-- Validation pass of create_order (src/main.py lines 327-337): walk the
loaded basket rows in order; a missing product fails ProductNotFound, a row
with stock < quantity fails InsufficientStock, otherwise the float total is
accumulated.  No mutation happens in this pass. -/
def co_validate (db : DB) : List BasketItem → ℚ → Except Err ℚ
  | [], total => .ok total
  | item :: rest, total =>
    match find_product db.products item.product_id with
    | none => .error (.productNotFound item.product_id)
    | some product =>
      if product.stock < item.quantity then
        .error (.insufficientStock item.product_id)
      else
        co_validate db rest (py_acc total product.price item.quantity)

/-- Second loop of create_order (src/main.py lines 349-365): for each loaded
basket row, re-query the product, insert a frozen OrderItem, decrement the
product's stock and delete the basket row.  The none branch is unreachable
after a successful validation pass in a sequential run (the Python code makes
the same assumption: it dereferences product unguarded). -/
def co_mutate_items (oid : ℤ) : List BasketItem → DB → DB
  | [], db => db
  | item :: rest, db =>
    match find_product db.products item.product_id with
    | none => co_mutate_items oid rest db
    | some product =>
      let oi : OrderItem :=
        ⟨db.nextOrderItemId, oid, item.product_id, item.quantity, product.price⟩
      co_mutate_items oid rest
        { db with
          orderItems := db.orderItems ++ [oi]
          nextOrderItemId := db.nextOrderItemId + 1
          products := update_stock item.product_id (fun s => s - item.quantity) db.products
          basketItems := db.basketItems.filter (fun b => !(b.id == item.id)) }

/-- Mutation phase of create_order: insert the Order row with the computed
total (the Numeric(10,2) column rounds it to two decimals) and commit
(src/main.py lines 339-346), then run the item loop and commit again
(lines 348-367).  Returns the order id and both committed snapshots. -/
def co_commit (uid : ℤ) (total : ℚ) (items : List BasketItem) (db : DB) :
    ℤ × DB × DB :=
  let oid := db.nextOrderId
  let db1 : DB :=
    { db with
      orders := db.orders ++ [⟨oid, uid, roundN2 total⟩]
      nextOrderId := oid + 1 }
  let db2 := co_mutate_items oid items db1
  (oid, db1, db2)

/-- Outcome of a create_order call: the response (order id or error), the list
of database snapshots committed during the call, and the final visible
database state. -/
structure CreateResult where
  result : Except Err ℤ
  committed : List DB
  final : DB
  deriving DecidableEq, Repr

/-- POST /orders/ (src/main.py create_order, lines 313-368).  Loads the
caller's basket rows once; an empty basket fails EmptyBasket before any
mutation; the validation pass fails before any mutation; otherwise the
mutation phase runs with its two commits. -/
def create_order (uid : ℤ) (db : DB) : CreateResult :=
  let items := user_basket db uid
  if items.isEmpty then ⟨.error .emptyBasket, [], db⟩
  else
    match co_validate db items 0 with
    | .error e => ⟨.error e, [], db⟩
    | .ok total =>
      let r := co_commit uid total items db
      ⟨.ok r.1, [r.2.1, r.2.2], r.2.2⟩

/-- Stock-restoring loop of cancel_order (src/main.py lines 388-393): for each
order item, re-query the product and, when it still exists, add the item
quantity back to its stock; missing products are silently skipped. -/
def restock : List OrderItem → List Product → List Product
  | [], prods => prods
  | oi :: rest, prods =>
    match find_product prods oi.product_id with
    | none => restock rest prods
    | some _ =>
      restock rest (update_stock oi.product_id (fun s => s + oi.quantity) prods)

/-- POST /orders/{order_id}/cancel (src/main.py cancel_order, lines 370-397).
Looks the order up scoped to (order id, user id); absence fails NotFound with
no mutation; otherwise every order item's quantity is returned to stock and
the result committed.  The order row itself is neither deleted nor marked. -/
def cancel_order (uid oid : ℤ) (db : DB) : Except Err Unit × DB :=
  match db.orders.find? (fun o => o.id == oid && o.user_id == uid) with
  | none => (.error .notFound, db)
  | some _ =>
    let items := db.orderItems.filter (fun oi => oi.order_id == oid)
    (.ok (), { db with products := restock items db.products })

/-- POST /basket/ (src/main.py add_to_basket, lines 162-202).  The stock guard
compares the product's stock with the newly added quantity only; an existing
(user, product) row is then merged by summing quantities, otherwise a new row
is inserted. -/
def add_to_basket (uid pid qty : ℤ) (db : DB) : Except Err BasketItem × DB :=
  match find_product db.products pid with
  | none => (.error (.productNotFound pid), db)
  | some product =>
    if product.stock < qty then (.error (.insufficientStock pid), db)
    else
      match db.basketItems.find? (fun b => b.user_id == uid && b.product_id == pid) with
      | some existing =>
        let updated : BasketItem := { existing with quantity := existing.quantity + qty }
        (.ok updated,
          { db with
            basketItems := db.basketItems.map (fun b => if b.id == existing.id then updated else b) })
      | none =>
        let newItem : BasketItem := ⟨db.nextBasketItemId, uid, pid, qty⟩
        (.ok newItem,
          { db with
            basketItems := db.basketItems ++ [newItem]
            nextBasketItemId := db.nextBasketItemId + 1 })

/-! ### Authentication embeddings (src/auth.py)

The external auth service's verdict on the bearer token is a parameter: none
for an invalid token, some uid for a valid one. -/

/-- Authentication failure (401 Unauthorized). -/
inductive AuthErr where
  | unauthenticated
  deriving DecidableEq, Repr

/-- AuthServiceClient.get_current_user_id (src/auth.py lines 64-81): verify
the token with the auth service and return the user id.  It performs no local
database access at all. -/
def get_current_user_id (verdict : Option ℤ) (db : DB) : Except AuthErr ℤ × DB :=
  match verdict with
  | none => (.error .unauthenticated, db)
  | some uid => (.ok uid, db)

/-- AuthServiceClient.get_current_user (src/auth.py lines 83-107): resolve the
user id, then fetch the local user row, lazily inserting a placeholder shadow
record when absent. -/
def get_current_user (verdict : Option ℤ) (db : DB) : Except AuthErr User × DB :=
  match get_current_user_id verdict db with
  | (.error e, db) => (.error e, db)
  | (.ok uid, db) =>
    match db.users.find? (fun u => u.id == uid) with
    | some u => (.ok u, db)
    | none =>
      let u : User := ⟨uid, "User", "user@example.com"⟩
      (.ok u, { db with users := db.users ++ [u] })

/-- Response shape of GET /users/me. -/
inductive MeResponse where
  | known (u : User)
  | unknown (uid : ℤ)
  deriving DecidableEq, Repr

/-- GET /users/me (src/main.py read_users_me, lines 89-99): authenticates via
get_current_user_id only, then reads the local row; when it is absent the
endpoint answers with the minimal Unknown User payload and writes nothing. -/
def read_users_me (verdict : Option ℤ) (db : DB) : Except AuthErr MeResponse × DB :=
  match get_current_user_id verdict db with
  | (.error e, db) => (.error e, db)
  | (.ok uid, db) =>
    match db.users.find? (fun u => u.id == uid) with
    | none => (.ok (.unknown uid), db)
    | some u => (.ok (.known u), db)

/-! ### Operation sequences (for the stock invariant) -/

/-- One client-visible operation of the order workflow. -/
inductive Op where
  | create (uid : ℤ)
  | cancel (uid oid : ℤ)
  deriving DecidableEq, Repr

/-- Final database state after one operation. -/
def applyOp (db : DB) : Op → DB
  | .create uid => (create_order uid db).final
  | .cancel uid oid => (cancel_order uid oid db).2

/-- Final database state after a sequence of operations. -/
def applyOps (db : DB) (ops : List Op) : DB := ops.foldl applyOp db

/-- Exact decimal total of a priced basket, following the specification text:
accumulate price times quantity with exact (decimal, hence rational)
arithmetic.  This definition follows the spec's words, for comparison with the
float accumulation the source performs. -/
def spec_total_decimal (entries : List (ℚ × ℤ)) : ℚ :=
  entries.foldl (fun t e => qadd t (qmul e.1 (mkRat e.2 1))) (mkRat 0 1)

/-- The state classes preserved by the order workflow: non-negative stocks,
non-negative basket and order-item quantities, and at most one basket row per
(user, product) pair — what the application maintains on states it can itself
produce. -/
def StockInv (db : DB) : Prop :=
  (∀ p ∈ db.products, 0 ≤ p.stock) ∧
  (∀ b ∈ db.basketItems, 0 ≤ b.quantity) ∧
  (∀ oi ∈ db.orderItems, 0 ≤ oi.quantity) ∧
  db.basketItems.Pairwise (fun a b => a.user_id ≠ b.user_id ∨ a.product_id ≠ b.product_id)

instance (db : DB) : Decidable (StockInv db) := by
  unfold StockInv
  infer_instance

/-! ### Example databases used by the concrete theorems -/

/-- One product with stock 5; user 2 owns a basket row; user 1's basket is
empty. -/
def dbEmptyBasket : DB := ⟨[], [⟨1, mkRat 10 1, 5⟩], [⟨1, 2, 1, 1⟩], [], [], 2, 1, 1⟩

/-- Order 1 is owned by user 2; product 1 has stock 5. -/
def dbWrongOwner : DB :=
  ⟨[], [⟨1, mkRat 10 1, 5⟩], [], [⟨1, 2, mkRat 20 1⟩], [⟨1, 1, 1, 2, mkRat 10 1⟩], 1, 2, 2⟩

/-- A committed order (id 1, user 1) of 2 units of product 1; stock 5. -/
def dbCancelTwice : DB :=
  ⟨[], [⟨1, mkRat 10 1, 5⟩], [], [⟨1, 1, mkRat 20 1⟩], [⟨1, 1, 1, 2, mkRat 10 1⟩], 1, 2, 2⟩

/-- Product 1 (price 10.00, stock 5); user 1's basket holds 2 units. -/
def dbAtomic : DB := ⟨[], [⟨1, mkRat 10 1, 5⟩], [⟨1, 1, 1, 2⟩], [], [], 2, 1, 1⟩

/-- Product 1 priced 19.99 with stock 5; user 1's basket holds 3 units. -/
def dbDecimal : DB := ⟨[], [⟨1, mkRat 1999 100, 5⟩], [⟨1, 1, 1, 3⟩], [], [], 2, 1, 1⟩

/-- Product 1 with stock 5; user 1 already has 4 units of it in the basket. -/
def dbMergeBasket : DB := ⟨[], [⟨1, mkRat 10 1, 5⟩], [⟨1, 1, 1, 4⟩], [], [], 2, 1, 1⟩

/-- A database with no local user rows at all. -/
def dbNoShadow : DB := ⟨[], [], [], [], [], 1, 1, 1⟩

/-- Product 1 with stock 1; users 1 and 2 each hold 1 unit in their baskets. -/
def dbRace : DB := ⟨[], [⟨1, mkRat 10 1, 1⟩], [⟨1, 1, 1, 1⟩, ⟨2, 2, 1, 1⟩], [], [], 3, 1, 1⟩

/-- Product 1 with stock 5; user 1's basket holds two separate rows of 3 units
each for the same product (the schema has no uniqueness constraint ruling this
state out). -/
def dbDupBasketRows : DB :=
  ⟨[], [⟨1, mkRat 10 1, 5⟩], [⟨1, 1, 1, 3⟩, ⟨2, 1, 1, 3⟩], [], [], 3, 1, 1⟩

/-- Two products (19.99 stock 5 and 5.00 stock 7); user 1's basket holds 2
units of product 1 and 3 of product 2. -/
def dbRoundTrip : DB :=
  ⟨[], [⟨1, mkRat 1999 100, 5⟩, ⟨2, mkRat 500 100, 7⟩],
    [⟨1, 1, 1, 2⟩, ⟨2, 1, 2, 3⟩], [], [], 3, 1, 1⟩

/-! ### Sanity lemmas for the rational helpers -/

theorem qadd_eq (a b : ℚ) : qadd a b = a + b := by
  have ha : ((a.den : ℚ)) ≠ 0 := Nat.cast_ne_zero.mpr a.den_nz
  have hb : ((b.den : ℚ)) ≠ 0 := Nat.cast_ne_zero.mpr b.den_nz
  rw [qadd, Rat.mkRat_eq_div]
  conv_rhs => rw [← Rat.num_div_den a, ← Rat.num_div_den b]
  rw [div_add_div _ _ ha hb]
  push_cast
  ring_nf

theorem qmul_eq (a b : ℚ) : qmul a b = a * b := by
  rw [qmul, Rat.mkRat_eq_div]
  conv_rhs => rw [← Rat.num_div_den a, ← Rat.num_div_den b]
  rw [div_mul_div_comm]
  push_cast
  ring_nf

/-! ### List-level lemmas about the query helpers -/

theorem find_product_nil (pid : ℤ) : find_product [] pid = none := rfl

theorem find_product_cons (p : Product) (ps : List Product) (pid : ℤ) :
    find_product (p :: ps) pid = if p.id = pid then some p else find_product ps pid := by
  by_cases h : p.id = pid
  · rw [if_pos h]
    exact List.find?_cons_of_pos _ (by simp [h])
  · rw [if_neg h]
    exact List.find?_cons_of_neg _ (by simp [h])

theorem update_stock_cons (pid : ℤ) (f : ℤ → ℤ) (p : Product) (ps : List Product) :
    update_stock pid f (p :: ps) =
      if p.id = pid then { p with stock := f p.stock } :: ps
      else p :: update_stock pid f ps := by
  by_cases h : p.id = pid
  · simp [update_stock, h]
  · simp [update_stock, h]

theorem find_update_stock (pid q : ℤ) (f : ℤ → ℤ) (l : List Product) :
    find_product (update_stock pid f l) q =
      if q = pid then (find_product l pid).map (fun p => { p with stock := f p.stock })
      else find_product l q := by
  induction l with
  | nil =>
    simp only [update_stock, find_product_nil, Option.map_none']
    rw [ite_self]
  | cons p ps ih =>
    rw [update_stock_cons]
    by_cases hp : p.id = pid
    · by_cases hq : q = pid
      · subst hq
        simp [hp, find_product_cons]
      · have hpid : ¬pid = q := fun hh => hq hh.symm
        simp [hp, hq, hpid, find_product_cons]
    · by_cases hq : q = pid
      · subst hq
        simp [hp, find_product_cons, ih]
      · by_cases hpq : p.id = q
        · simp [hp, hq, hpq, find_product_cons]
        · simp [hp, hq, hpq, find_product_cons, ih]

theorem oi_qty_nil (q : ℤ) : oi_qty [] q = 0 := rfl

theorem oi_qty_cons (oi : OrderItem) (rest : List OrderItem) (q : ℤ) :
    oi_qty (oi :: rest) q =
      (if oi.product_id = q then oi.quantity else 0) + oi_qty rest q := by
  simp only [oi_qty, List.filter_cons]
  by_cases h : oi.product_id = q
  · simp [h]
  · simp [h]

theorem oi_qty_append (l1 l2 : List OrderItem) (q : ℤ) :
    oi_qty (l1 ++ l2) q = oi_qty l1 q + oi_qty l2 q := by
  simp [oi_qty, List.filter_append]

theorem qty_for_cons (b : BasketItem) (rest : List BasketItem) (q : ℤ) :
    qty_for (b :: rest) q =
      (if b.product_id = q then b.quantity else 0) + qty_for rest q := by
  simp only [qty_for, List.filter_cons]
  by_cases h : b.product_id = q
  · simp [h]
  · simp [h]

theorem restock_cons_none (oi : OrderItem) (rest : List OrderItem) (l : List Product)
    (h : find_product l oi.product_id = none) :
    restock (oi :: rest) l = restock rest l := by
  simp [restock, h]

theorem restock_cons_some (oi : OrderItem) (rest : List OrderItem) (l : List Product)
    (p0 : Product) (h : find_product l oi.product_id = some p0) :
    restock (oi :: rest) l =
      restock rest (update_stock oi.product_id (fun s => s + oi.quantity) l) := by
  simp [restock, h]

theorem find_restock (ois : List OrderItem) (l : List Product) (q : ℤ) (p : Product)
    (h : find_product l q = some p) :
    find_product (restock ois l) q = some { p with stock := p.stock + oi_qty ois q } := by
  induction ois generalizing l p with
  | nil =>
    simp [restock, oi_qty_nil, h]
  | cons oi rest ih =>
    rw [oi_qty_cons]
    cases hfp : find_product l oi.product_id with
    | none =>
      have hne : oi.product_id ≠ q := by
        intro hqq
        rw [hqq, h] at hfp
        exact Option.noConfusion hfp
      rw [restock_cons_none _ _ _ hfp, if_neg hne, zero_add]
      exact ih l p h
    | some p0 =>
      rw [restock_cons_some _ _ _ _ hfp]
      have hupd := find_update_stock oi.product_id q (fun s => s + oi.quantity) l
      by_cases hq : q = oi.product_id
      · subst hq
        rw [if_pos rfl, h, Option.map_some'] at hupd
        rw [ih _ _ hupd]
        rw [if_pos rfl]
        congr 1
        simp [add_assoc]
      · rw [if_neg hq, h] at hupd
        rw [ih _ _ hupd, if_neg (fun hh => hq hh.symm), zero_add]

/-- Every element of a stock-updated product list has non-negative stock,
provided all original stocks are non-negative and the rewritten first match
stays non-negative. -/
theorem update_stock_nonneg (pid : ℤ) (f : ℤ → ℤ) (l : List Product)
    (h : ∀ p ∈ l, 0 ≤ p.stock)
    (hf : ∀ p, find_product l pid = some p → 0 ≤ f p.stock) :
    ∀ x ∈ update_stock pid f l, 0 ≤ x.stock := by
  induction l with
  | nil => intro x hx; simp [update_stock] at hx
  | cons p ps ih =>
    intro x hx
    rw [update_stock_cons] at hx
    by_cases hp : p.id = pid
    · have hfind : find_product (p :: ps) pid = some p := by
        rw [find_product_cons, if_pos hp]
      rw [if_pos hp] at hx
      rcases List.mem_cons.mp hx with h1 | h2
      · subst h1; exact hf p hfind
      · exact h x (List.mem_cons_of_mem _ h2)
    · rw [if_neg hp] at hx
      rcases List.mem_cons.mp hx with h1 | h2
      · subst h1; exact h x (List.mem_cons_self _ _)
      · refine ih (fun y hy => h y (List.mem_cons_of_mem _ hy)) ?_ x h2
        intro y hy
        refine hf y ?_
        rw [find_product_cons, if_neg hp]
        exact hy

theorem restock_nonneg (ois : List OrderItem) (l : List Product)
    (h : ∀ p ∈ l, 0 ≤ p.stock) (hq : ∀ oi ∈ ois, 0 ≤ oi.quantity) :
    ∀ x ∈ restock ois l, 0 ≤ x.stock := by
  induction ois generalizing l with
  | nil => simpa [restock] using h
  | cons oi rest ih =>
    cases hfp : find_product l oi.product_id with
    | none =>
      rw [restock_cons_none _ _ _ hfp]
      exact ih l h (fun y hy => hq y (List.mem_cons_of_mem _ hy))
    | some p0 =>
      rw [restock_cons_some _ _ _ _ hfp]
      refine ih _ ?_ (fun y hy => hq y (List.mem_cons_of_mem _ hy))
      refine update_stock_nonneg _ _ _ h ?_
      intro p hp
      have h0 : 0 ≤ p.stock := h p (List.mem_of_find?_eq_some hp)
      have h1 : 0 ≤ oi.quantity := hq oi (List.mem_cons_self _ _)
      omega

/-! ### Unfolding equations for the endpoint functions -/

theorem create_order_empty_eq (uid : ℤ) (db : DB) (h : user_basket db uid = []) :
    create_order uid db = ⟨.error .emptyBasket, [], db⟩ := by
  simp [create_order, h]

theorem cancel_order_none_eq (uid oid : ℤ) (db : DB)
    (h : db.orders.find? (fun o => o.id == oid && o.user_id == uid) = none) :
    cancel_order uid oid db = (.error .notFound, db) := by
  simp [cancel_order, h]

theorem cancel_order_some_eq (uid oid : ℤ) (db : DB) (o : Order)
    (h : db.orders.find? (fun o => o.id == oid && o.user_id == uid) = some o) :
    cancel_order uid oid db =
      (.ok (), { db with
        products := restock (db.orderItems.filter (fun oi => oi.order_id == oid))
          db.products }) := by
  simp [cancel_order, h]

/-! ### C7 -/

/-- C7: for every user whose basket is empty, create_order fails with
EmptyBasket (HTTP 400), commits nothing and leaves the database — products,
baskets, orders, order items — exactly unchanged. -/
theorem create_order_empty_basket_no_mutation (uid : ℤ) (db : DB)
    (h : user_basket db uid = []) :
    create_order uid db = ⟨.error .emptyBasket, [], db⟩ ∧
      http_status .emptyBasket = 400 :=
  ⟨create_order_empty_eq uid db h, rfl⟩

/-- Witness for C7: user 1 has an empty basket in dbEmptyBasket (while user 2
owns a basket row), and the call changes nothing. -/
theorem create_order_empty_basket_no_mutation_witness :
    create_order 1 dbEmptyBasket = ⟨.error .emptyBasket, [], dbEmptyBasket⟩ ∧
      http_status .emptyBasket = 400 :=
  create_order_empty_basket_no_mutation 1 dbEmptyBasket (by decide)

/-! ### C8 -/

/-- C8: cancel_order on an order id that does not exist for the calling user —
either absent entirely or owned by a different user — returns NotFound
(HTTP 404) and leaves the database unchanged, in particular no product stock
changes. -/
theorem cancel_order_not_found_no_mutation (uid oid : ℤ) (db : DB)
    (h : db.orders.find? (fun o => o.id == oid && o.user_id == uid) = none) :
    cancel_order uid oid db = (.error .notFound, db) ∧
      http_status .notFound = 404 :=
  ⟨cancel_order_none_eq uid oid db h, rfl⟩

/-- Witness for C8: in dbWrongOwner order 1 exists but is owned by user 2, so
user 1's cancellation returns NotFound with no change. -/
theorem cancel_order_not_found_no_mutation_witness :
    cancel_order 1 1 dbWrongOwner = (.error .notFound, dbWrongOwner) ∧
      http_status .notFound = 404 :=
  cancel_order_not_found_no_mutation 1 1 dbWrongOwner (by decide)

/-! ### C6 -/

/-- C6: cancel_order is not idempotent.  An order row carries no status field
and is never deleted, so a second cancel_order on the same committed order
succeeds again and restores the ordered quantities to stock a second time:
for every product still present, the stock after two cancellations is the
original stock plus twice the order's quantity for that product. -/
theorem cancel_order_not_idempotent (uid oid : ℤ) (db : DB) (o : Order)
    (h : db.orders.find? (fun o => o.id == oid && o.user_id == uid) = some o) :
    (cancel_order uid oid db).1 = .ok () ∧
    (cancel_order uid oid (cancel_order uid oid db).2).1 = .ok () ∧
    ∀ pid p, find_product db.products pid = some p →
      stock_of (cancel_order uid oid (cancel_order uid oid db).2).2 pid =
        some (p.stock +
          2 * oi_qty (db.orderItems.filter (fun oi => oi.order_id == oid)) pid) := by
  have e1 := cancel_order_some_eq uid oid db o h
  have e2 := cancel_order_some_eq uid oid
    ({ db with
        products := restock (db.orderItems.filter (fun oi => oi.order_id == oid))
          db.products }) o h
  refine ⟨by rw [e1], by rw [e1, e2], ?_⟩
  intro pid p hfp
  have f1 := find_restock (db.orderItems.filter (fun oi => oi.order_id == oid))
    db.products pid p hfp
  have f2 := find_restock (db.orderItems.filter (fun oi => oi.order_id == oid))
    (restock (db.orderItems.filter (fun oi => oi.order_id == oid)) db.products) pid _ f1
  rw [e1, e2]
  simp only [stock_of]
  rw [show ({ db with
      products := restock (db.orderItems.filter (fun oi => oi.order_id == oid))
        db.products } : DB).orderItems = db.orderItems from rfl]
  rw [f2]
  simp only [Option.map_some']
  congr 1
  ring

/-- Witness for C6: cancelling order 1 of dbCancelTwice twice raises product
1's stock from 5 to 5 + 2·2. -/
theorem cancel_order_not_idempotent_witness :
    (cancel_order 1 1 dbCancelTwice).1 = .ok () ∧
    (cancel_order 1 1 (cancel_order 1 1 dbCancelTwice).2).1 = .ok () ∧
    stock_of (cancel_order 1 1 (cancel_order 1 1 dbCancelTwice).2).2 1 =
      some (5 + 2 * oi_qty (dbCancelTwice.orderItems.filter
        (fun oi => oi.order_id == 1)) 1) := by
  have h := cancel_order_not_idempotent 1 1 dbCancelTwice ⟨1, 1, mkRat 20 1⟩ (by decide)
  exact ⟨h.1, h.2.1, h.2.2 1 ⟨1, mkRat 10 1, 5⟩ (by decide)⟩

/-! ### C1 -/

/-- C1: create_order does not commit its mutation phase atomically.  On a
plain successful run it issues two separate commits (src/main.py lines 345 and
367): the first committed snapshot already contains the Order row — durably
visible to any other session or after a crash — while its OrderItem rows do
not exist yet, stock is untouched and the basket is undrained; only the second
commit adds them.  This exhibits exactly the intermediate state (an Order row
with no items) that the claim says can never be left visible. -/
theorem create_order_commits_twice :
    (create_order 1 dbAtomic).result = .ok 1 ∧
    (create_order 1 dbAtomic).committed.map
        (fun d => ((d.orders.filter (fun o => o.id == 1)).length,
          (d.orderItems.filter (fun oi => oi.order_id == 1)).length)) = [(1, 0), (1, 1)] ∧
    stock_of ((create_order 1 dbAtomic).committed.headD dbAtomic) 1 = some 5 ∧
    ((create_order 1 dbAtomic).committed.headD dbAtomic).basketItems =
      dbAtomic.basketItems := by decide

/-! ### C2 -/

/-- C2 counterexample: the total create_order computes for a basket of 3 units
at 19.99 is not the exact decimal sum 59.97.  The source accumulates
`total += float(product.price) * item.quantity` in binary64 floating point, so
the validation pass produces the dyadic rational 2110006794167255/2^45 (the
double nearest 59.97), which differs from 59.97, while the exact decimal
accumulation demanded by the claim yields 5997/100 exactly. -/
theorem create_order_total_is_float_not_decimal :
    spec_total_decimal [(mkRat 1999 100, 3)] = mkRat 5997 100 ∧
    co_validate dbDecimal (user_basket dbDecimal 1) (mkRat 0 1) =
      .ok (mkRat 2110006794167255 35184372088832) ∧
    mkRat 2110006794167255 35184372088832 ≠ mkRat 5997 100 := by decide

/-- C2 amended: create_order accumulates the total in binary64 floating point
rather than decimal arithmetic; the computed float for 3 units at 19.99 is the
double nearest 59.97 but not 59.97 itself, and only the rounding performed by
the Numeric(10,2) total column brings the persisted order total back to
exactly 59.97. -/
theorem create_order_total_float_then_rounded :
    (create_order 1 dbDecimal).result = .ok 1 ∧
    (create_order 1 dbDecimal).final.orders.map Order.total = [mkRat 5997 100] ∧
    roundN2 (mkRat 2110006794167255 35184372088832) = mkRat 5997 100 := by decide

/-! ### C4 -/

/-- C4 counterexample: user 1 already holds 4 units of product 1 (stock 5) and
adds 3 more.  Existing-plus-new is 7 > 5, so the claim demands an
InsufficientStock failure, but add_to_basket compares the stock only against
the newly added quantity (src/main.py line 177) and succeeds, merging the
basket row to 7 units. -/
theorem add_to_basket_overcommits_on_merge :
    (dbMergeBasket.basketItems.find?
        (fun b => b.user_id == 1 && b.product_id == 1)).map BasketItem.quantity = some 4 ∧
    stock_of dbMergeBasket 1 = some 5 ∧
    (add_to_basket 1 1 3 dbMergeBasket).1 = .ok ⟨1, 1, 1, 7⟩ ∧
    (add_to_basket 1 1 3 dbMergeBasket).2.basketItems = [⟨1, 1, 1, 7⟩] := by decide

/-- C4 amended: when the user already has a basket row for the product, the
call merges by summing quantities, and it fails with InsufficientStock exactly
when the newly added quantity alone exceeds the product's current stock — the
existing quantity is not part of the check. -/
theorem add_to_basket_checks_new_qty_only (uid pid qty : ℤ) (db : DB)
    (product : Product) (existing : BasketItem)
    (hp : find_product db.products pid = some product)
    (he : db.basketItems.find?
      (fun b => b.user_id == uid && b.product_id == pid) = some existing) :
    ((add_to_basket uid pid qty db).1 = .error (.insufficientStock pid) ↔
      product.stock < qty) ∧
    (qty ≤ product.stock →
      (add_to_basket uid pid qty db).1 =
        .ok { existing with quantity := existing.quantity + qty }) := by
  by_cases h : product.stock < qty
  · refine ⟨?_, ?_⟩
    · simp [add_to_basket, hp, h]
    · intro hge; omega
  · refine ⟨?_, ?_⟩
    · simp [add_to_basket, hp, h, he]
    · intro _
      simp [add_to_basket, hp, h, he]

/-- Witness for C4 amended: adding 1 unit (within stock) to the existing
4-unit row succeeds with the merged quantity 5 and is not InsufficientStock. -/
theorem add_to_basket_checks_new_qty_only_witness :
    ¬(add_to_basket 1 1 1 dbMergeBasket).1 = .error (.insufficientStock 1) ∧
    (add_to_basket 1 1 1 dbMergeBasket).1 = .ok ⟨1, 1, 1, 5⟩ := by
  have h := add_to_basket_checks_new_qty_only 1 1 1 dbMergeBasket
    ⟨1, mkRat 10 1, 5⟩ ⟨1, 1, 1, 4⟩ (by decide) (by decide)
  exact ⟨fun hc => absurd (h.1.mp hc) (by decide), h.2 (by decide)⟩

/-! ### C9 -/

/-- C9 counterexample: a successfully authenticated request (GET /users/me by
the verified user id 7) completes while the local users table has no row for
id 7, and afterwards there is still no such row: every endpoint authenticates
through get_current_user_id, which performs no local database access, so
authentication creates no shadow record. -/
theorem authenticated_request_creates_no_user_row :
    read_users_me (some 7) dbNoShadow = (.ok (.unknown 7), dbNoShadow) ∧
    dbNoShadow.users.find? (fun u => u.id == 7) = none := by decide

/-- C9 amended: only the get_current_user dependency creates the placeholder
shadow row ("User"/"user@example.com") when the identifier has no local user
record; the endpoints authenticate via get_current_user_id, which performs no
local write, so an authenticated operation can complete with no local User row
for the identifier. -/
theorem shadow_row_only_via_get_current_user (uid : ℤ) (db : DB)
    (h : db.users.find? (fun u => u.id == uid) = none) :
    read_users_me (some uid) db = (.ok (.unknown uid), db) ∧
    (get_current_user (some uid) db).1 = .ok ⟨uid, "User", "user@example.com"⟩ ∧
    (get_current_user (some uid) db).2.users =
      db.users ++ [⟨uid, "User", "user@example.com"⟩] := by
  refine ⟨?_, ?_, ?_⟩ <;>
    simp [read_users_me, get_current_user, get_current_user_id, h]

/-- Witness for C9 amended: with no user rows at all, user id 7's GET
/users/me leaves the table empty, while get_current_user would insert the
placeholder row. -/
theorem shadow_row_only_via_get_current_user_witness :
    read_users_me (some 7) dbNoShadow = (.ok (.unknown 7), dbNoShadow) ∧
    (get_current_user (some 7) dbNoShadow).1 = .ok ⟨7, "User", "user@example.com"⟩ ∧
    (get_current_user (some 7) dbNoShadow).2.users =
      dbNoShadow.users ++ [⟨7, "User", "user@example.com"⟩] :=
  shadow_row_only_via_get_current_user 7 dbNoShadow (by decide)

/-! ### C10 -/

/-- C10: under the interleaving in which both concurrent create_order calls
run their validation pass before either mutation phase commits — each request
handler reads stock 1 and passes the check — both calls succeed: two orders
are committed and product 1's stock ends at −1.  The mutation phase re-reads
the product but never re-checks stock (src/main.py lines 349-365), so nothing
makes the second call fail InsufficientStock. -/
theorem concurrent_create_order_both_succeed :
    co_validate dbRace (user_basket dbRace 1) (mkRat 0 1) = .ok (mkRat 10 1) ∧
    co_validate dbRace (user_basket dbRace 2) (mkRat 0 1) = .ok (mkRat 10 1) ∧
    stock_of (co_commit 2 (mkRat 10 1) (user_basket dbRace 2)
        (co_commit 1 (mkRat 10 1) (user_basket dbRace 1) dbRace).2.2).2.2 1 = some (-1) ∧
    (co_commit 2 (mkRat 10 1) (user_basket dbRace 2)
        (co_commit 1 (mkRat 10 1) (user_basket dbRace 1) dbRace).2.2).2.2.orders.length =
      2 := by decide

/-! ### C3 counterexample -/

/-- C3 counterexample: a state whose only product has non-negative stock (5)
on which a single create_order drives the stock to −1.  The validation loop
checks each basket row against the same unreduced stock without accounting for
earlier rows (3 ≤ 5 twice), then the mutation loop decrements twice. -/
theorem stock_goes_negative_on_duplicate_rows :
    stock_of dbDupBasketRows 1 = some 5 ∧
    stock_of (applyOps dbDupBasketRows [.create 1]) 1 = some (-1) := by decide

/-! ### Unfolding equations for the create_order passes -/

theorem co_validate_nil (db : DB) (t : ℚ) : co_validate db [] t = .ok t := rfl

theorem co_validate_cons_none (db : DB) (item : BasketItem) (rest : List BasketItem)
    (t : ℚ) (h : find_product db.products item.product_id = none) :
    co_validate db (item :: rest) t = .error (.productNotFound item.product_id) := by
  simp [co_validate, h]

theorem co_validate_cons_low (db : DB) (item : BasketItem) (rest : List BasketItem)
    (t : ℚ) (p : Product) (h : find_product db.products item.product_id = some p)
    (hs : p.stock < item.quantity) :
    co_validate db (item :: rest) t = .error (.insufficientStock item.product_id) := by
  simp [co_validate, h, hs]

theorem co_validate_cons_ok (db : DB) (item : BasketItem) (rest : List BasketItem)
    (t : ℚ) (p : Product) (h : find_product db.products item.product_id = some p)
    (hs : ¬p.stock < item.quantity) :
    co_validate db (item :: rest) t =
      co_validate db rest (py_acc t p.price item.quantity) := by
  simp [co_validate, h, hs]

/-- A successful validation pass saw every basket row's product and found its
stock at least the row quantity. -/
theorem co_validate_ok_mem (db : DB) (items : List BasketItem) (t t2 : ℚ)
    (h : co_validate db items t = .ok t2) :
    ∀ item ∈ items, ∃ p, find_product db.products item.product_id = some p ∧
      item.quantity ≤ p.stock := by
  induction items generalizing t with
  | nil => intro x hx; cases hx
  | cons item rest ih =>
    intro x hx
    cases hfp : find_product db.products item.product_id with
    | none =>
      rw [co_validate_cons_none db item rest t hfp] at h
      exact absurd h (by simp)
    | some p =>
      by_cases hs : p.stock < item.quantity
      · rw [co_validate_cons_low db item rest t p hfp hs] at h
        exact absurd h (by simp)
      · rw [co_validate_cons_ok db item rest t p hfp hs] at h
        rcases List.mem_cons.mp hx with h1 | h2
        · subst h1
          exact ⟨p, hfp, le_of_not_lt hs⟩
        · exact ih _ h x h2

theorem co_mutate_nil (oid : ℤ) (db : DB) : co_mutate_items oid [] db = db := rfl

theorem co_mutate_cons_none (oid : ℤ) (item : BasketItem) (rest : List BasketItem)
    (db : DB) (h : find_product db.products item.product_id = none) :
    co_mutate_items oid (item :: rest) db = co_mutate_items oid rest db := by
  simp [co_mutate_items, h]

theorem co_mutate_cons_some (oid : ℤ) (item : BasketItem) (rest : List BasketItem)
    (db : DB) (p : Product) (h : find_product db.products item.product_id = some p) :
    co_mutate_items oid (item :: rest) db = co_mutate_items oid rest
      { db with
        orderItems := db.orderItems ++
          [⟨db.nextOrderItemId, oid, item.product_id, item.quantity, p.price⟩]
        nextOrderItemId := db.nextOrderItemId + 1
        products := update_stock item.product_id (fun s => s - item.quantity) db.products
        basketItems := db.basketItems.filter (fun b => !(b.id == item.id)) } := by
  simp [co_mutate_items, h]

theorem isSome_find_update_stock (pid : ℤ) (f : ℤ → ℤ) (l : List Product) (q : ℤ) :
    (find_product (update_stock pid f l) q).isSome = (find_product l q).isSome := by
  rw [find_update_stock]
  by_cases hq : q = pid
  · rw [if_pos hq, hq]
    cases find_product l pid <;> rfl
  · rw [if_neg hq]

/-- The mutation loop never touches the orders table. -/
theorem co_mutate_orders (oid : ℤ) (items : List BasketItem) (db : DB) :
    (co_mutate_items oid items db).orders = db.orders := by
  induction items generalizing db with
  | nil => rfl
  | cons item rest ih =>
    cases hfp : find_product db.products item.product_id with
    | none => rw [co_mutate_cons_none _ _ _ _ hfp]; exact ih db
    | some p => rw [co_mutate_cons_some _ _ _ _ _ hfp]; exact ih _

/-- Stock after the mutation loop: every product present before is present
after, with its stock decreased by the total quantity the processed basket
rows hold for it (provided each processed row's product exists). -/
theorem find_co_mutate (oid : ℤ) (items : List BasketItem) (db : DB) (q : ℤ) (p : Product)
    (hex : ∀ it ∈ items, (find_product db.products it.product_id).isSome)
    (h : find_product db.products q = some p) :
    find_product (co_mutate_items oid items db).products q =
      some { p with stock := p.stock - qty_for items q } := by
  induction items generalizing db p with
  | nil =>
    rw [co_mutate_nil]
    simpa [qty_for] using h
  | cons item rest ih =>
    obtain ⟨p0, hfp⟩ :=
      Option.isSome_iff_exists.mp (hex item (List.mem_cons_self _ _))
    rw [co_mutate_cons_some _ _ _ _ _ hfp, qty_for_cons]
    have hupd := find_update_stock item.product_id q
      (fun s => s - item.quantity) db.products
    have hex2 : ∀ it ∈ rest,
        (find_product (update_stock item.product_id
          (fun s => s - item.quantity) db.products) it.product_id).isSome := by
      intro it hit
      rw [isSome_find_update_stock]
      exact hex it (List.mem_cons_of_mem _ hit)
    by_cases hq : q = item.product_id
    · subst hq
      rw [if_pos rfl, h, Option.map_some'] at hupd
      rw [h] at hfp
      cases hfp
      rw [ih _ _ hex2 hupd, if_pos rfl]
      simp only [Option.some.injEq, Product.mk.injEq, true_and]
      omega
    · rw [if_neg hq, h] at hupd
      rw [ih _ _ hex2 hupd,
        if_neg (fun hh => hq hh.symm), zero_add]

/-- Order-item quantities for the new order after the mutation loop: the
original table's contribution plus one item per processed basket row
(provided each processed row's product exists). -/
theorem co_mutate_oi_qty (oid : ℤ) (items : List BasketItem) (db : DB) (q : ℤ)
    (hex : ∀ it ∈ items, (find_product db.products it.product_id).isSome) :
    oi_qty ((co_mutate_items oid items db).orderItems.filter
        (fun oi => oi.order_id == oid)) q =
      oi_qty (db.orderItems.filter (fun oi => oi.order_id == oid)) q +
        qty_for items q := by
  induction items generalizing db with
  | nil => simp [co_mutate_nil, qty_for]
  | cons item rest ih =>
    obtain ⟨p0, hfp⟩ :=
      Option.isSome_iff_exists.mp (hex item (List.mem_cons_self _ _))
    rw [co_mutate_cons_some _ _ _ _ _ hfp]
    have hex2 : ∀ it ∈ rest,
        (find_product (update_stock item.product_id
          (fun s => s - item.quantity) db.products) it.product_id).isSome := by
      intro it hit
      rw [isSome_find_update_stock]
      exact hex it (List.mem_cons_of_mem _ hit)
    rw [ih _ hex2]
    rw [show ({ db with
        orderItems := db.orderItems ++
          [⟨db.nextOrderItemId, oid, item.product_id, item.quantity, p0.price⟩]
        nextOrderItemId := db.nextOrderItemId + 1
        products := update_stock item.product_id
          (fun s => s - item.quantity) db.products
        basketItems := db.basketItems.filter (fun b => !(b.id == item.id)) } : DB).orderItems
      = db.orderItems ++
          [⟨db.nextOrderItemId, oid, item.product_id, item.quantity, p0.price⟩] from rfl]
    rw [List.filter_append, oi_qty_append, qty_for_cons]
    by_cases hpq : item.product_id = q
    · simp [oi_qty_cons, oi_qty_nil, hpq]
      ring
    · simp [oi_qty_cons, oi_qty_nil, hpq]

/-! ### create_order unfolding equations -/

theorem create_order_err_eq (uid : ℤ) (db : DB) (e : Err)
    (hne : user_basket db uid ≠ [])
    (hv : co_validate db (user_basket db uid) 0 = .error e) :
    create_order uid db = ⟨.error e, [], db⟩ := by
  have hne2 : (user_basket db uid).isEmpty = false := by
    cases hub : user_basket db uid with
    | nil => exact absurd hub hne
    | cons a l => rfl
  simp [create_order, hne2, hv]

theorem create_order_ok_eq (uid : ℤ) (db : DB) (total : ℚ)
    (hne : user_basket db uid ≠ [])
    (hv : co_validate db (user_basket db uid) 0 = .ok total) :
    create_order uid db =
      ⟨.ok db.nextOrderId,
        [{ db with
            orders := db.orders ++ [⟨db.nextOrderId, uid, roundN2 total⟩]
            nextOrderId := db.nextOrderId + 1 },
          co_mutate_items db.nextOrderId (user_basket db uid)
            { db with
              orders := db.orders ++ [⟨db.nextOrderId, uid, roundN2 total⟩]
              nextOrderId := db.nextOrderId + 1 }],
        co_mutate_items db.nextOrderId (user_basket db uid)
          { db with
            orders := db.orders ++ [⟨db.nextOrderId, uid, roundN2 total⟩]
            nextOrderId := db.nextOrderId + 1 }⟩ := by
  have hne2 : (user_basket db uid).isEmpty = false := by
    cases hub : user_basket db uid with
    | nil => exact absurd hub hne
    | cons a l => rfl
  simp [create_order, hne2, hv, co_commit]

/-! ### C5 -/

/-- C5: a successful create_order followed immediately by cancel_order of that
order restores every product's stock.  After the create, each product's stock
is its prior value minus the total quantity the user's basket held for it;
the cancel then succeeds and brings each product back to its pre-create
stock.  The hypothesis says the fresh order id is not referenced by any
pre-existing order item, which the database's key generation and foreign keys
guarantee. -/
theorem create_then_cancel_restores_stock (uid oid : ℤ) (db : DB)
    (hfresh : ∀ oi ∈ db.orderItems, oi.order_id ≠ db.nextOrderId)
    (hok : (create_order uid db).result = .ok oid) :
    (∀ pid p, find_product db.products pid = some p →
      stock_of (create_order uid db).final pid =
        some (p.stock - qty_for (user_basket db uid) pid)) ∧
    (cancel_order uid oid (create_order uid db).final).1 = .ok () ∧
    (∀ pid p, find_product db.products pid = some p →
      stock_of (cancel_order uid oid (create_order uid db).final).2 pid =
        some p.stock) := by
  by_cases hemp : user_basket db uid = []
  · rw [create_order_empty_eq uid db hemp] at hok
    exact absurd hok (by simp)
  cases hv : co_validate db (user_basket db uid) 0 with
  | error e =>
    rw [create_order_err_eq uid db e hemp hv] at hok
    exact absurd hok (by simp)
  | ok total =>
    have heq := create_order_ok_eq uid db total hemp hv
    rw [heq] at hok
    have hoid : db.nextOrderId = oid := by simpa using hok
    subst hoid
    have hex : ∀ it ∈ user_basket db uid,
        (find_product db.products it.product_id).isSome := by
      intro it hit
      obtain ⟨p, hp, -⟩ := co_validate_ok_mem db (user_basket db uid) 0 total hv it hit
      rw [hp]; rfl
    have parta : ∀ pid p, find_product db.products pid = some p →
        find_product (co_mutate_items db.nextOrderId (user_basket db uid)
          { db with
            orders := db.orders ++ [⟨db.nextOrderId, uid, roundN2 total⟩]
            nextOrderId := db.nextOrderId + 1 }).products pid =
          some { p with stock := p.stock - qty_for (user_basket db uid) pid } := by
      intro pid p hfp
      exact find_co_mutate db.nextOrderId (user_basket db uid) _ pid p hex hfp
    have horders : (co_mutate_items db.nextOrderId (user_basket db uid)
        { db with
          orders := db.orders ++ [⟨db.nextOrderId, uid, roundN2 total⟩]
          nextOrderId := db.nextOrderId + 1 }).orders =
        db.orders ++ [⟨db.nextOrderId, uid, roundN2 total⟩] := by
      rw [co_mutate_orders]
    have hfindord : ∃ o, (co_mutate_items db.nextOrderId (user_basket db uid)
        { db with
          orders := db.orders ++ [⟨db.nextOrderId, uid, roundN2 total⟩]
          nextOrderId := db.nextOrderId + 1 }).orders.find?
          (fun o => o.id == db.nextOrderId && o.user_id == uid) = some o := by
      rw [horders, List.find?_append]
      cases h1 : db.orders.find? (fun o => o.id == db.nextOrderId && o.user_id == uid) with
      | some o => exact ⟨o, rfl⟩
      | none => exact ⟨⟨db.nextOrderId, uid, roundN2 total⟩, by simp⟩
    obtain ⟨o, ho⟩ := hfindord
    have hcancel := cancel_order_some_eq uid db.nextOrderId
      (co_mutate_items db.nextOrderId (user_basket db uid)
        { db with
          orders := db.orders ++ [⟨db.nextOrderId, uid, roundN2 total⟩]
          nextOrderId := db.nextOrderId + 1 }) o ho
    have hqty : ∀ q, oi_qty ((co_mutate_items db.nextOrderId (user_basket db uid)
        { db with
          orders := db.orders ++ [⟨db.nextOrderId, uid, roundN2 total⟩]
          nextOrderId := db.nextOrderId + 1 }).orderItems.filter
          (fun oi => oi.order_id == db.nextOrderId)) q =
        qty_for (user_basket db uid) q := by
      intro q
      rw [co_mutate_oi_qty db.nextOrderId (user_basket db uid)
        { db with
          orders := db.orders ++ [⟨db.nextOrderId, uid, roundN2 total⟩]
          nextOrderId := db.nextOrderId + 1 } q hex]
      have hnil : db.orderItems.filter (fun oi => oi.order_id == db.nextOrderId) = [] := by
        rw [List.filter_eq_nil_iff]
        intro oi hoi
        simpa using hfresh oi hoi
      rw [show ({ db with
          orders := db.orders ++ [⟨db.nextOrderId, uid, roundN2 total⟩]
          nextOrderId := db.nextOrderId + 1 } : DB).orderItems = db.orderItems from rfl,
        hnil, oi_qty_nil, zero_add]
    refine ⟨?_, ?_, ?_⟩
    · intro pid p hfp
      rw [heq]
      simp [stock_of, parta pid p hfp]
    · rw [heq, hcancel]
    · intro pid p hfp
      rw [heq, hcancel]
      have f2 := find_restock
        ((co_mutate_items db.nextOrderId (user_basket db uid)
          { db with
            orders := db.orders ++ [⟨db.nextOrderId, uid, roundN2 total⟩]
            nextOrderId := db.nextOrderId + 1 }).orderItems.filter
            (fun oi => oi.order_id == db.nextOrderId))
        ((co_mutate_items db.nextOrderId (user_basket db uid)
          { db with
            orders := db.orders ++ [⟨db.nextOrderId, uid, roundN2 total⟩]
            nextOrderId := db.nextOrderId + 1 }).products)
        pid _ (parta pid p hfp)
      simp only [stock_of, f2, Option.map_some']
      rw [hqty pid]
      simp only [Option.some.injEq]
      omega

/-- Witness for C5: ordering user 1's basket from dbRoundTrip drops product
1's stock from 5 by the basket quantity, and the immediate cancellation
restores it to 5. -/
theorem create_then_cancel_restores_stock_witness :
    stock_of (create_order 1 dbRoundTrip).final 1 =
      some (5 - qty_for (user_basket dbRoundTrip 1) 1) ∧
    (cancel_order 1 1 (create_order 1 dbRoundTrip).final).1 = .ok () ∧
    stock_of (cancel_order 1 1 (create_order 1 dbRoundTrip).final).2 1 = some 5 := by
  have h := create_then_cancel_restores_stock 1 1 dbRoundTrip (by decide) (by decide)
  exact ⟨h.1 1 ⟨1, mkRat 1999 100, 5⟩ (by decide), h.2.1,
    h.2.2 1 ⟨1, mkRat 1999 100, 5⟩ (by decide)⟩

/-! ### C3 invariant preservation -/

/-- The mutation loop only ever deletes basket rows. -/
theorem co_mutate_basket_sublist (oid : ℤ) (items : List BasketItem) (db : DB) :
    (co_mutate_items oid items db).basketItems.Sublist db.basketItems := by
  induction items generalizing db with
  | nil => exact List.Sublist.refl _
  | cons item rest ih =>
    cases hfp : find_product db.products item.product_id with
    | none =>
      rw [co_mutate_cons_none _ _ _ _ hfp]
      exact ih db
    | some p =>
      rw [co_mutate_cons_some _ _ _ _ _ hfp]
      exact (ih _).trans (List.filter_sublist _)

/-- Every order item after the mutation loop is either pre-existing or copies
its quantity from one of the processed basket rows. -/
theorem co_mutate_orderItems_mem (oid : ℤ) (items : List BasketItem) (db : DB) :
    ∀ x ∈ (co_mutate_items oid items db).orderItems,
      x ∈ db.orderItems ∨ ∃ item ∈ items, x.quantity = item.quantity := by
  induction items generalizing db with
  | nil => intro x hx; exact .inl hx
  | cons item rest ih =>
    intro x hx
    cases hfp : find_product db.products item.product_id with
    | none =>
      rw [co_mutate_cons_none _ _ _ _ hfp] at hx
      rcases ih db x hx with h1 | ⟨it, hit, hq⟩
      · exact .inl h1
      · exact .inr ⟨it, List.mem_cons_of_mem _ hit, hq⟩
    | some p =>
      rw [co_mutate_cons_some _ _ _ _ _ hfp] at hx
      rcases ih _ x hx with h1 | ⟨it, hit, hq⟩
      · rcases List.mem_append.mp h1 with h2 | h3
        · exact .inl h2
        · have hx3 : x = ⟨db.nextOrderItemId, oid, item.product_id,
              item.quantity, p.price⟩ := List.mem_singleton.mp h3
          exact .inr ⟨item, List.mem_cons_self _ _, by rw [hx3]⟩
      · exact .inr ⟨it, List.mem_cons_of_mem _ hit, hq⟩

/-- Stocks stay non-negative through the mutation loop when the processed
rows were validated against the same snapshot and touch pairwise distinct
products. -/
theorem co_mutate_stock_nonneg (oid : ℤ) (items : List BasketItem) (db : DB)
    (h : ∀ p ∈ db.products, 0 ≤ p.stock)
    (hv : ∀ item ∈ items, ∃ p, find_product db.products item.product_id = some p ∧
      item.quantity ≤ p.stock)
    (hdisj : items.Pairwise (fun a b => a.product_id ≠ b.product_id)) :
    ∀ x ∈ (co_mutate_items oid items db).products, 0 ≤ x.stock := by
  induction items generalizing db with
  | nil => simpa [co_mutate_nil] using h
  | cons item rest ih =>
    obtain ⟨p, hfp, hle⟩ := hv item (List.mem_cons_self _ _)
    rw [co_mutate_cons_some _ _ _ _ _ hfp]
    have hstep : ∀ x ∈ update_stock item.product_id
        (fun s => s - item.quantity) db.products, 0 ≤ x.stock := by
      apply update_stock_nonneg _ _ _ h
      intro p2 hp2
      rw [hfp] at hp2
      injection hp2 with h2
      subst h2
      omega
    have hv2 : ∀ it ∈ rest, ∃ p2, find_product (update_stock item.product_id
        (fun s => s - item.quantity) db.products) it.product_id = some p2 ∧
        it.quantity ≤ p2.stock := by
      intro it hit
      obtain ⟨p2, hp2, hle2⟩ := hv it (List.mem_cons_of_mem _ hit)
      have hne : ¬it.product_id = item.product_id := by
        intro hh
        exact (List.pairwise_cons.mp hdisj).1 it hit hh.symm
      refine ⟨p2, ?_, hle2⟩
      rw [find_update_stock, if_neg hne]
      exact hp2
    exact ih _ hstep hv2 (List.pairwise_cons.mp hdisj).2

theorem create_order_inv (uid : ℤ) (db : DB) (hinv : StockInv db) :
    StockInv (create_order uid db).final := by
  by_cases hemp : user_basket db uid = []
  · rw [create_order_empty_eq uid db hemp]; exact hinv
  cases hv : co_validate db (user_basket db uid) 0 with
  | error e => rw [create_order_err_eq uid db e hemp hv]; exact hinv
  | ok total =>
    rw [create_order_ok_eq uid db total hemp hv]
    obtain ⟨hstock, hbq, hoq, hpair⟩ := hinv
    have hvmem := co_validate_ok_mem db (user_basket db uid) 0 total hv
    have hdisj : (user_basket db uid).Pairwise
        (fun a b => a.product_id ≠ b.product_id) := by
      have hsub : (user_basket db uid).Pairwise
          (fun a b => a.user_id ≠ b.user_id ∨ a.product_id ≠ b.product_id) :=
        List.Pairwise.sublist (List.filter_sublist db.basketItems) hpair
      refine List.Pairwise.imp_of_mem ?_ hsub
      intro a b ha hb hr
      have ha2 : a.user_id = uid := by
        simpa using (List.mem_filter.mp ha).2
      have hb2 : b.user_id = uid := by
        simpa using (List.mem_filter.mp hb).2
      rcases hr with h | h
      · exact absurd (ha2.trans hb2.symm) h
      · exact h
    refine ⟨?_, ?_, ?_, ?_⟩
    · exact co_mutate_stock_nonneg db.nextOrderId (user_basket db uid)
        { db with
          orders := db.orders ++ [⟨db.nextOrderId, uid, roundN2 total⟩]
          nextOrderId := db.nextOrderId + 1 } hstock hvmem hdisj
    · intro b hb
      exact hbq b ((co_mutate_basket_sublist db.nextOrderId (user_basket db uid)
        { db with
          orders := db.orders ++ [⟨db.nextOrderId, uid, roundN2 total⟩]
          nextOrderId := db.nextOrderId + 1 }).subset hb)
    · intro oi hoi
      rcases co_mutate_orderItems_mem db.nextOrderId (user_basket db uid)
        { db with
          orders := db.orders ++ [⟨db.nextOrderId, uid, roundN2 total⟩]
          nextOrderId := db.nextOrderId + 1 } oi hoi with h1 | ⟨it, hit, hq⟩
      · exact hoq oi h1
      · rw [hq]
        exact hbq it ((List.filter_sublist _).subset hit)
    · exact List.Pairwise.sublist (co_mutate_basket_sublist db.nextOrderId
        (user_basket db uid)
        { db with
          orders := db.orders ++ [⟨db.nextOrderId, uid, roundN2 total⟩]
          nextOrderId := db.nextOrderId + 1 }) hpair

theorem cancel_order_inv (uid oid : ℤ) (db : DB) (hinv : StockInv db) :
    StockInv (cancel_order uid oid db).2 := by
  obtain ⟨hstock, hbq, hoq, hpair⟩ := hinv
  cases hfind : db.orders.find? (fun o => o.id == oid && o.user_id == uid) with
  | none =>
    rw [cancel_order_none_eq _ _ _ hfind]
    exact ⟨hstock, hbq, hoq, hpair⟩
  | some o =>
    rw [cancel_order_some_eq _ _ _ _ hfind]
    refine ⟨?_, hbq, hoq, hpair⟩
    apply restock_nonneg _ _ hstock
    intro oi hoi
    exact hoq oi ((List.filter_sublist _).subset hoi)

theorem applyOp_inv (db : DB) (op : Op) (hinv : StockInv db) :
    StockInv (applyOp db op) := by
  cases op with
  | create uid => exact create_order_inv uid db hinv
  | cancel uid oid => exact cancel_order_inv uid oid db hinv

theorem applyOps_inv (db : DB) (ops : List Op) (hinv : StockInv db) :
    StockInv (applyOps db ops) := by
  induction ops generalizing db with
  | nil => exact hinv
  | cons op rest ih => exact ih _ (applyOp_inv db op hinv)

/-- C3 amended: from every state whose stocks are non-negative and that
additionally satisfies the integrity properties the application itself
maintains — non-negative basket and order-item quantities and at most one
basket row per (user, product) — any finite sequence of create_order and
cancel_order operations leaves every product's stock non-negative. -/
theorem stock_nonneg_after_ops (db : DB) (ops : List Op) (hinv : StockInv db) :
    ∀ p ∈ (applyOps db ops).products, 0 ≤ p.stock :=
  (applyOps_inv db ops hinv).1

/-- Witness for C3 amended: a create followed by two cancels of the same order
on dbRoundTrip leaves the first product's stock non-negative. -/
theorem stock_nonneg_after_ops_witness :
    0 ≤ ((applyOps dbRoundTrip [Op.create 1, Op.cancel 1 1, Op.cancel 1 1]).products.headD
      ⟨0, mkRat 0 1, 0⟩).stock := by
  have h := stock_nonneg_after_ops dbRoundTrip
    [Op.create 1, Op.cancel 1 1, Op.cancel 1 1] (by decide)
  exact h _ (by decide)

end IdpDb
